import Mathlib

/-!
Emotion tracker: the capture-and-confirm workflow.

A shallow embedding of the camera workflow of
`frontend/src/pages/UserDashboardPage.jsx` (the dashboard session) and of
`frontend/src/pages/RegisterPage.jsx` (the enrollment camera).

* React state (`useState`) and the `videoRef` sink become fields of a record.
* Every `async` handler is cut at its `await` points: the part that runs
  before the suspension and the part that resumes when the promise settles
  are separate functions, and the promises that are still outstanding are
  counted in the record.  The atomic composition of the pieces carries the
  name of the source function.
* A JavaScript exception is an `Except.error`; an exception nobody catches
  is appended to the `uncaught` log of the session.
* Media streams are heap objects: the record keeps every stream that
  `getUserMedia` has handed out, as the list of its tracks (`true` = live,
  `false` = ended), and the video sink holds an index into that list.
* Expression scores are JavaScript numbers that are only ever compared with
  `>`; they are modelled as rationals (no NaN).
-/

namespace EmotionTracker

/-! ## JavaScript values and objects -/

/-- The JavaScript values that occur in user ids and history records. -/
inductive JsValue where
  | undefined
  | null
  | num (n : Int)
  | str (s : String)
  deriving DecidableEq, Repr

/-- JavaScript truthiness, as used by `if (userId)` and `if (user)`. -/
def JsValue.truthy : JsValue → Bool
  | .undefined => false
  | .null => false
  | .num n => n != 0
  | .str s => s != ""

/-- A plain object: its own enumerable properties in insertion order. -/
abbrev JsObject := List (String × JsValue)

/-- Property read `obj[key]`; a missing property reads as `undefined`. -/
def JsObject.get (o : JsObject) (key : String) : JsValue :=
  (List.lookup key o).getD JsValue.undefined

/-- Property write `obj[key] = v`: an existing key keeps its position, a new
key is added at the end. -/
def JsObject.set : JsObject → String → JsValue → JsObject
  | [], key, v => [(key, v)]
  | (k, w) :: rest, key, v =>
    if k = key then (k, v) :: rest else (k, w) :: JsObject.set rest key v

/-- Object spread `{ ...base, ...extra }`: the properties of `extra` are
written over `base` one after the other. -/
def JsObject.spread (base extra : JsObject) : JsObject :=
  extra.foldl (fun acc kv => JsObject.set acc kv.1 kv.2) base

/-! ## The detector's results -/

/-- One element of the array resolved by
`detectAllFaces(...).withFaceExpressions()`: only its `expressions` object
is read, a map from expression name to score. -/
structure Detection where
  expressions : List (String × ℚ)
  deriving DecidableEq

/-- The array `Object.keys(expressions)`. -/
def Detection.keys (d : Detection) : List String :=
  d.expressions.map Prod.fst

/-- The read `expressions[a]`.  It is only evaluated at keys of the object;
the default stands for `undefined`, which is never reached. -/
def Detection.score (d : Detection) (a : String) : ℚ :=
  (List.lookup a d.expressions).getD 0

/-- The callback `(a, b) => expressions[a] > expressions[b] ? a : b`. -/
def pickHigher (d : Detection) (a b : String) : String :=
  if d.score a > d.score b then a else b

/-- The expression `Object.keys(expressions).reduce(cb)` with no initial value:
the first key seeds the accumulator; on an empty array `reduce` throws. -/
def topEmotion (d : Detection) : Except String String :=
  match d.keys with
  | [] => .error "TypeError: Reduce of empty array with no initial value"
  | k :: ks => .ok (ks.foldl (pickHigher d) k)

/-! ## The dashboard session -/

/-- The state of one mounted `UserDashboardPage`. -/
structure Session where
  /-- The `emotion` state. -/
  emotion : String
  /-- The `emotionHistory` state. -/
  emotionHistory : List JsObject
  /-- The `isRecording` state. -/
  isRecording : Bool
  /-- The `error` state. -/
  error : String
  /-- The `confirmEmotion` state. -/
  confirmEmotion : Bool
  /-- The `userId` state. -/
  userId : JsValue
  /-- The value of `videoRef.current.srcObject`: `none` is `null`. -/
  srcObject : Option Nat
  /-- Every stream handed out by `getUserMedia`, as the list of its tracks. -/
  streams : List (List Bool)
  /-- Calls of `startRecording` suspended at `await loadModels()`. -/
  pendingModels : Nat
  /-- Promises of `getUserMedia` that have not settled. -/
  pendingCamera : Nat
  /-- Calls of `captureEmotion` suspended at the detector. -/
  pendingDetect : Nat
  /-- Calls of `addEmotion` that have not settled, with their payload. -/
  pendingSaves : List (JsValue × String)
  /-- Calls of `getEmotion` that have not settled, with their argument. -/
  pendingFetch : List JsValue
  /-- Exceptions that no handler of the component caught. -/
  uncaught : List String
  deriving DecidableEq

/-- The component right after its first render, before the mount effect. -/
def Session.initial : Session :=
  { emotion := "", emotionHistory := [], isRecording := false, error := "",
    confirmEmotion := false, userId := JsValue.null, srcObject := none,
    streams := [], pendingModels := 0, pendingCamera := 0, pendingDetect := 0,
    pendingSaves := [], pendingFetch := [], uncaught := [] }

/-- Whether every track of a stream has ended. -/
def fullyStopped (tracks : List Bool) : Bool :=
  tracks.all (fun live => !live)

/-- The number of streams that still have a live track. -/
def liveStreamCount (s : Session) : Nat :=
  (s.streams.filter (fun tracks => !fullyStopped tracks)).length

/-- The tracks of the stream with handle `h`. -/
def Session.tracksOf (s : Session) (h : Nat) : List Bool :=
  s.streams.getD h []

/-- The loop `stream.getTracks().forEach((track) => track.stop())` on the
stream with handle `h`. -/
def stopTracksAt : List (List Bool) → Nat → List (List Bool)
  | [], _ => []
  | tracks :: rest, 0 => tracks.map (fun _ => false) :: rest
  | tracks :: rest, h + 1 => tracks :: stopTracksAt rest h

/-! ### fetchEmotionHistory -/

/-- The mapping `response.emotion.map((record, index) => ({ id: index + 1,
...record }))`, from position `index` on. -/
def toRowsFrom : Nat → List JsObject → List JsObject
  | _, [] => []
  | index, record :: rest =>
    JsObject.spread [("id", JsValue.num (index + 1))] record
      :: toRowsFrom (index + 1) rest

/-- The rows built from a whole response. -/
def toRows (records : List JsObject) : List JsObject :=
  toRowsFrom 0 records

/-- The call `fetchEmotionHistory(userId)` up to `await getEmotion(userId)`:
the request is issued. -/
def fetchEmotionHistory_begin (s : Session) (userId : JsValue) : Session :=
  { s with pendingFetch := s.pendingFetch ++ [userId] }

/-- The rest of `fetchEmotionHistory` once `getEmotion` settles: `some` is a
response whose `emotion` field is the given array, `none` is a rejection (or
a response the mapping throws on), handled by the `catch`. -/
def fetchEmotionHistory_resume (s : Session) (response : Option (List JsObject)) :
    Session :=
  match response with
  | some records => { s with emotionHistory := toRows records }
  | none => { s with error := "Error fetching emotion history. Please try again." }

/-- The mount effect: `getCurrentUser()`, then `setUserId(user.id)` and
`fetchEmotionHistory(user.id)` when there is a user. -/
def mount (user : Option JsObject) : Session :=
  match user with
  | none => Session.initial
  | some u =>
    fetchEmotionHistory_begin { Session.initial with userId := u.get "id" } (u.get "id")

/-! ### startRecording -/

/-- The call `startRecording()` up to `await loadModels()`. -/
def startRecording_begin (s : Session) : Session :=
  { s with isRecording := true, error := "", pendingModels := s.pendingModels + 1 }

/-- The function `loadModels` once its loads settle: a failure is caught
inside and reported through `setError`. -/
def loadModels (s : Session) (loaded : Bool) : Session :=
  if loaded then s else { s with error := "Error loading AI models." }

/-- The rest of `startRecording` after `await loadModels()`: when
`navigator.mediaDevices.getUserMedia` exists the camera is requested. -/
def startRecording_afterModels (s : Session) (loaded hasGetUserMedia : Bool) : Session :=
  let s1 := loadModels s loaded
  let s2 := { s1 with pendingModels := s1.pendingModels - 1 }
  if hasGetUserMedia then { s2 with pendingCamera := s2.pendingCamera + 1 } else s2

/-- The `.then` callback of the camera request: the new stream, with
`trackCount` live tracks, is bound to the video sink. -/
def getUserMedia_then (s : Session) (trackCount : Nat) : Session :=
  { s with
    streams := s.streams ++ [List.replicate trackCount true],
    srcObject := some s.streams.length,
    pendingCamera := s.pendingCamera - 1 }

/-- The `.catch` callback of the camera request. -/
def getUserMedia_catch (s : Session) : Session :=
  { s with
    error := "Camera access denied. Please allow camera permissions.",
    isRecording := false,
    pendingCamera := s.pendingCamera - 1 }

/-- How a camera request ends. -/
inductive CameraResult where
  | granted (trackCount : Nat)
  | rejected
  deriving DecidableEq

/-- The function `startRecording` run to completion with nothing in between:
`camera` is `none` when `getUserMedia` does not exist. -/
def startRecording (s : Session) (loaded : Bool) (camera : Option CameraResult) : Session :=
  let s1 := startRecording_afterModels (startRecording_begin s) loaded camera.isSome
  match camera with
  | none => s1
  | some (.granted trackCount) => getUserMedia_then s1 trackCount
  | some .rejected => getUserMedia_catch s1

/-! ### stopRecording -/

/-- The function `stopRecording`.  With no stream bound, `stream` is `null`
and `stream.getTracks()` throws before any state is written. -/
def stopRecording (s : Session) : Except String Session :=
  match s.srcObject with
  | none => .error "TypeError: Cannot read properties of null (reading getTracks)"
  | some h =>
    .ok { s with streams := stopTracksAt s.streams h, srcObject := none,
                 isRecording := false }

/-! ### captureEmotion -/

/-- The rest of `captureEmotion` once the detector settles: `none` is a
rejected promise, which the function does not catch. -/
def captureEmotion (s : Session) (result : Option (List Detection)) :
    Except String Session :=
  match result with
  | none => .error "Error: detection failed"
  | some [] => .ok { s with error := "No face detected. Please try again." }
  | some (first :: _) =>
    match topEmotion first with
    | .error e => .error e
    | .ok label => .ok { s with emotion := label, confirmEmotion := true }

/-! ### confirmAndSaveEmotion -/

/-- The statements of the `try` block after the `if`:
`setConfirmEmotion(false); stopRecording(); setError("")`, with the `catch`
of the enclosing `try` around them. -/
def confirmAndSaveEmotion_finish (s : Session) : Session :=
  let s1 := { s with confirmEmotion := false }
  match stopRecording s1 with
  | .ok s2 => { s2 with error := "" }
  | .error _ => { s1 with error := "Failed to save emotion. Please try again." }

/-- The function `confirmAndSaveEmotion` from `await addEmotion(...)` on, for
the `userId` its closure captured: `saved` tells whether the promise was
fulfilled. -/
def confirmAndSaveEmotion_resume (s : Session) (userId : JsValue) (saved : Bool) : Session :=
  if saved then confirmAndSaveEmotion_finish (fetchEmotionHistory_begin s userId)
  else { s with error := "Failed to save emotion. Please try again." }

/-- The function `confirmAndSaveEmotion` up to its suspension: with a truthy
`userId` the request `addEmotion({ userId, emotion })` is issued, otherwise
the function runs to its end. -/
def confirmAndSaveEmotion_begin (s : Session) : Session :=
  if s.userId.truthy then
    { s with pendingSaves := s.pendingSaves ++ [(s.userId, s.emotion)] }
  else confirmAndSaveEmotion_finish s

/-- The function `confirmAndSaveEmotion` run to completion with nothing in
between: `saved` is the outcome of `addEmotion`, consulted only when the
call is made. -/
def confirmAndSaveEmotion (s : Session) (saved : Bool) : Session :=
  if s.userId.truthy then confirmAndSaveEmotion_resume s s.userId saved
  else confirmAndSaveEmotion_finish s

/-! ### The events of the dashboard -/

/-- What can happen to a mounted dashboard: a click on one of its controls,
or the settling of a promise one of its handlers is waiting for. -/
inductive Event where
  | startClick
  | modelsSettled (loaded hasGetUserMedia : Bool)
  | cameraGranted (trackCount : Nat)
  | cameraRejected
  | captureClick
  | detectSettled (result : Option (List Detection))
  | stopClick
  | confirmClick
  | cancelClick
  | saveSettled (index : Nat) (saved : Bool)
  | fetchSettled (index : Nat) (response : Option (List JsObject))
  deriving DecidableEq

/-- Whether an event can occur in a state.  The first button is
`isRecording ? captureEmotion : startRecording`, the stop button is rendered
under `isRecording &&`, the confirm and cancel buttons under
`confirmEmotion &&`; a promise settles only while it is outstanding. -/
def offered (s : Session) : Event → Bool
  | .startClick => !s.isRecording
  | .modelsSettled _ _ => decide (0 < s.pendingModels)
  | .cameraGranted _ => decide (0 < s.pendingCamera)
  | .cameraRejected => decide (0 < s.pendingCamera)
  | .captureClick => s.isRecording
  | .detectSettled _ => decide (0 < s.pendingDetect)
  | .stopClick => s.isRecording
  | .confirmClick => s.confirmEmotion
  | .cancelClick => s.confirmEmotion
  | .saveSettled index _ => decide (index < s.pendingSaves.length)
  | .fetchSettled index _ => decide (index < s.pendingFetch.length)

/-- An exception that leaves a handler: the state written so far stays, and
the exception is logged as uncaught. -/
def settle (s : Session) (r : Except String Session) : Session :=
  match r with
  | .ok s1 => s1
  | .error e => { s with uncaught := s.uncaught ++ [e] }

/-- The effect of an event on the state. -/
def handle (s : Session) : Event → Session
  | .startClick => startRecording_begin s
  | .modelsSettled loaded hasGetUserMedia =>
    startRecording_afterModels s loaded hasGetUserMedia
  | .cameraGranted trackCount => getUserMedia_then s trackCount
  | .cameraRejected => getUserMedia_catch s
  | .captureClick => { s with pendingDetect := s.pendingDetect + 1 }
  | .detectSettled result =>
    let s1 := { s with pendingDetect := s.pendingDetect - 1 }
    settle s1 (captureEmotion s1 result)
  | .stopClick => settle s (stopRecording s)
  | .confirmClick => confirmAndSaveEmotion_begin s
  | .cancelClick => { s with confirmEmotion := false }
  | .saveSettled index saved =>
    match s.pendingSaves[index]? with
    | none => s
    | some payload =>
      confirmAndSaveEmotion_resume
        { s with pendingSaves := s.pendingSaves.eraseIdx index } payload.1 saved
  | .fetchSettled index response =>
    fetchEmotionHistory_resume
      { s with pendingFetch := s.pendingFetch.eraseIdx index } response

/-- One event: `none` when the event is not offered in the state. -/
def step (s : Session) (e : Event) : Option Session :=
  if offered s e then some (handle s e) else none

/-- A sequence of events, each offered in the state it occurs in. -/
def run : Session → List Event → Option Session
  | s, [] => some s
  | s, e :: es =>
    match step s e with
    | none => none
    | some s1 => run s1 es

/-- The face of the scenario: happy 0.8, neutral 0.1, sad 0.1. -/
def happyFace : Detection :=
  { expressions := [("happy", 0.8), ("neutral", 0.1), ("sad", 0.1)] }

/-- A dashboard that is streaming: one stream with one live track is bound. -/
def streamingSession : Session :=
  { Session.initial with isRecording := true, srcObject := some 0, streams := [[true]] }

/-- A dashboard that shows the confirmation dialog for "happy" to user 7
while it is streaming. -/
def confirmingSession : Session :=
  { streamingSession with emotion := "happy", confirmEmotion := true,
                          userId := JsValue.num 7 }

/-! ## The registration page -/

/-- The camera-related state of one `RegistrationPage`. -/
structure Registration where
  /-- The `isFlipped` state. -/
  isFlipped : Bool
  /-- The `cameraStream` state: `none` is `null`. -/
  cameraStream : Option Nat
  /-- The `error` state. -/
  error : String
  /-- Whether `videoRef.current` is an element: the video is rendered only on
  the flipped side of the card. -/
  videoMounted : Bool
  /-- The value of `videoRef.current.srcObject`. -/
  srcObject : Option Nat
  /-- Every stream handed out by `getUserMedia`, as the list of its tracks. -/
  streams : List (List Bool)
  /-- Calls of `startCamera` suspended at `await getUserMedia(...)`. -/
  pendingCamera : Nat
  /-- The cleanup function the effect returned when it last ran.  It is the
  `stopCamera` of that render, so it is determined by the value `cameraStream`
  had in that render; `none` when no effect has run. -/
  cleanup : Option (Option Nat)
  /-- Whether the component is mounted. -/
  mounted : Bool
  deriving DecidableEq

/-- The function `stopCamera` as created by a render in which `cameraStream`
had the value `captured`. -/
def stopCamera (captured : Option Nat) (r : Registration) : Registration :=
  match captured with
  | some h => { r with streams := stopTracksAt r.streams h, cameraStream := none }
  | none => r

/-- The call `startCamera()` up to `await getUserMedia(...)`. -/
def startCamera_begin (r : Registration) : Registration :=
  { r with pendingCamera := r.pendingCamera + 1 }

/-- The rest of `startCamera` once the camera request settles. -/
def startCamera_resume (r : Registration) (result : CameraResult) : Registration :=
  let r1 := { r with pendingCamera := r.pendingCamera - 1 }
  match result with
  | .granted trackCount =>
    let r2 := { r1 with streams := r1.streams ++ [List.replicate trackCount true] }
    if r2.videoMounted then
      { r2 with srcObject := some r1.streams.length,
                cameraStream := some r1.streams.length }
    else r2
  | .rejected => { r1 with error := "Failed to access the camera." }

/-- The commit of a render whose `isFlipped` differs from the one the effect
last ran with (or of the first render): the stored cleanup runs, then the
effect body `if (isFlipped) startCamera(); else stopCamera();` runs with the
functions of the render being committed, and `return stopCamera` stores the
`stopCamera` of that same render. -/
def commitEffect (r : Registration) : Registration :=
  let rendered := r.cameraStream
  let r1 := match r.cleanup with
    | some captured => stopCamera captured r
    | none => r
  let r2 := if r.isFlipped then startCamera_begin r1 else stopCamera rendered r1
  { r2 with cleanup := some rendered }

/-- The page after its first render and the first run of the effect. -/
def Registration.mounted0 : Registration :=
  commitEffect
    { isFlipped := false, cameraStream := none, error := "", videoMounted := false,
      srcObject := none, streams := [], pendingCamera := 0, cleanup := none,
      mounted := true }

/-- The unmount of the component: the stored cleanup runs and the refs are
detached. -/
def unmount (r : Registration) : Registration :=
  let r1 := match r.cleanup with
    | some captured => stopCamera captured r
    | none => r
  { r1 with cleanup := none, videoMounted := false, mounted := false }

/-- What can happen to a registration page, as far as the camera goes. -/
inductive RegEvent where
  | registered
  | cameraSettled (result : CameraResult)
  | unmounted
  deriving DecidableEq

/-- One event of the registration page.  `registered` is the success path of
`handleRegister`, offered on the unflipped side: `setIsFlipped(true)` makes
the next render show the video and re-runs the effect. -/
def stepReg (r : Registration) : RegEvent → Option Registration
  | .registered =>
    if r.mounted && !r.isFlipped then
      some (commitEffect { r with isFlipped := true, videoMounted := true })
    else none
  | .cameraSettled result =>
    if 0 < r.pendingCamera then some (startCamera_resume r result) else none
  | .unmounted => if r.mounted then some (unmount r) else none

/-- A sequence of events of the registration page. -/
def runReg : Registration → List RegEvent → Option Registration
  | r, [] => some r
  | r, e :: es =>
    match stepReg r e with
    | none => none
    | some r1 => runReg r1 es

/-! ## The history table -/

/-- The array `Object.keys(obj)` of a plain object. -/
def JsObject.keys (o : JsObject) : List String :=
  o.map Prod.fst

/-- Whether a property list stands for an object: no key occurs twice. -/
def JsObject.wellFormed (o : JsObject) : Bool :=
  decide o.keys.Nodup

/-- The body of the history table, `emotionHistory.map((record) => <tr ...>)`:
one line per element, in order, with the cells `record.id`, `record.emotion`
and the `record.timestamp` that the third cell formats as a date. -/
def historyTable (s : Session) : List (JsValue × JsValue × JsValue) :=
  s.emotionHistory.map
    (fun record => (record.get "id", record.get "emotion", record.get "timestamp"))

/-- A response of two records that carry an emotion and a timestamp and no
`id`. -/
def plainRecords : List JsObject :=
  [[("emotion", JsValue.str "happy"), ("timestamp", JsValue.str "2024-05-01T10:00:00Z")],
   [("emotion", JsValue.str "sad"), ("timestamp", JsValue.str "2024-05-02T11:30:00Z")]]

/-- A response of two records that both carry the `id` 5 of their own. -/
def recordsWithId : List JsObject :=
  [[("id", JsValue.num 5), ("emotion", JsValue.str "happy")],
   [("id", JsValue.num 5), ("emotion", JsValue.str "sad")]]

/-! ## The camera invariant of the dashboard -/

/-- What every reachable dashboard satisfies about its camera: while
`isRecording` is false nothing is bound or requested; at most one call of
`startRecording` is on its way to a stream; while one is, nothing is bound;
and every stream handed out so far is fully stopped, except the newest one
when it is the one bound to the sink. -/
def CameraInv (s : Session) : Prop :=
  (s.isRecording = false →
    s.srcObject = none ∧ s.pendingModels = 0 ∧ s.pendingCamera = 0) ∧
  s.pendingModels + s.pendingCamera ≤ 1 ∧
  (0 < s.pendingModels + s.pendingCamera → s.srcObject = none) ∧
  ((s.srcObject = none ∧ ∀ tracks ∈ s.streams, fullyStopped tracks = true) ∨
   (∃ old cur, s.streams = old ++ [cur] ∧ s.srcObject = some old.length ∧
      ∀ tracks ∈ old, fullyStopped tracks = true))

/-! ## Lemmas on the reduction -/

theorem foldl_pickHigher_mem (d : Detection) (ks : List String) (k : String) :
    ks.foldl (pickHigher d) k ∈ k :: ks := by
  induction ks generalizing k with
  | nil => simp
  | cons b rest ih =>
    have h := ih (pickHigher d k b)
    simp only [List.foldl_cons]
    rcases List.mem_cons.mp h with h1 | h1
    · rw [h1]
      unfold pickHigher
      split <;> simp
    · exact List.mem_cons_of_mem _ (List.mem_cons_of_mem _ h1)

theorem foldl_pickHigher_ge_seed (d : Detection) (ks : List String) (k : String) :
    d.score k ≤ d.score (ks.foldl (pickHigher d) k) := by
  induction ks generalizing k with
  | nil => simp
  | cons b rest ih =>
    simp only [List.foldl_cons]
    refine le_trans ?_ (ih (pickHigher d k b))
    unfold pickHigher
    split
    · exact le_refl _
    · rename_i h
      exact le_of_not_lt h

theorem foldl_pickHigher_max (d : Detection) (ks : List String) (k : String) :
    ∀ x ∈ k :: ks, d.score x ≤ d.score (ks.foldl (pickHigher d) k) := by
  induction ks generalizing k with
  | nil => simp
  | cons b rest ih =>
    intro x hx
    simp only [List.foldl_cons]
    rcases List.mem_cons.mp hx with h1 | h1
    · rw [h1]
      exact foldl_pickHigher_ge_seed d (b :: rest) k
    · rcases List.mem_cons.mp h1 with h2 | h2
      · rw [h2]
        refine le_trans ?_ (foldl_pickHigher_ge_seed d rest (pickHigher d k b))
        unfold pickHigher
        split
        · rename_i h
          exact le_of_lt h
        · exact le_refl _
      · exact ih (pickHigher d k b) x (List.mem_cons_of_mem _ h2)

theorem topEmotion_happyFace : topEmotion happyFace = .ok "happy" := by
  simp [topEmotion, happyFace, Detection.keys, pickHigher, Detection.score, List.lookup]
  norm_num

theorem run_append (s : Session) (es fs : List Event) :
    run s (es ++ fs) = (run s es).bind (fun s1 => run s1 fs) := by
  induction es generalizing s with
  | nil => simp [run]
  | cons e rest ih =>
    simp only [List.cons_append, run]
    cases step s e with
    | none => simp
    | some s1 => simpa using ih s1

theorem run_singleton (s : Session) (e : Event) : run s [e] = step s e := by
  simp only [run]
  cases step s e <;> rfl

theorem fullyStopped_stopTracksAt (streams : List (List Bool)) (h : Nat) :
    fullyStopped ((stopTracksAt streams h).getD h []) = true := by
  induction streams generalizing h with
  | nil => simp [stopTracksAt, fullyStopped]
  | cons tracks rest ih =>
    cases h with
    | zero => simp [stopTracksAt, fullyStopped]
    | succ n => simpa [stopTracksAt] using ih n

/-! ## The capture pass -/

/-- C1: for a non-empty detection list whose first element has at least one
expression key, `captureEmotion` succeeds, opens the confirmation, and sets
the label to a key of the first detection whose score is at least the score of
every key of that detection; the detections after the first play no role. -/
theorem captureEmotion_first_argmax (s : Session) (first : Detection)
    (rest : List Detection) (hkeys : first.keys ≠ []) :
    ∃ s1, captureEmotion s (some (first :: rest)) = .ok s1 ∧
      s1.confirmEmotion = true ∧
      s1.emotion ∈ first.keys ∧
      (∀ k ∈ first.keys, first.score k ≤ first.score s1.emotion) ∧
      ∀ others, captureEmotion s (some (first :: others)) = .ok s1 := by
  cases hk : first.keys with
  | nil => exact absurd hk hkeys
  | cons k ks =>
    refine ⟨{ s with emotion := ks.foldl (pickHigher first) k, confirmEmotion := true },
      ?_, rfl, ?_, ?_, ?_⟩
    · simp [captureEmotion, topEmotion, hk]
    · exact foldl_pickHigher_mem first ks k
    · exact foldl_pickHigher_max first ks k
    · intro others
      simp [captureEmotion, topEmotion, hk]

/-- C1 at the scenario of the specification: one face with happy 0.8,
neutral 0.1 and sad 0.1 yields the label "happy". -/
theorem captureEmotion_first_argmax_witness :
    happyFace.keys ≠ [] ∧
    captureEmotion Session.initial (some [happyFace])
      = .ok { Session.initial with emotion := "happy", confirmEmotion := true } ∧
    ∃ s1, captureEmotion Session.initial (some [happyFace]) = .ok s1 ∧
      s1.confirmEmotion = true ∧
      s1.emotion ∈ happyFace.keys ∧
      (∀ k ∈ happyFace.keys, happyFace.score k ≤ happyFace.score s1.emotion) ∧
      ∀ others, captureEmotion Session.initial (some (happyFace :: others)) = .ok s1 :=
  ⟨by simp [happyFace, Detection.keys],
   by simp [captureEmotion, topEmotion_happyFace],
   captureEmotion_first_argmax Session.initial happyFace []
     (by simp [happyFace, Detection.keys])⟩

/-- C2: in a streaming session, a capture pass (the click and the detector's
answer) that finds no face leaves the session streaming, with the same stream
bound and no track touched, throws nothing, and sets the error message to
"No face detected. Please try again.". -/
theorem capture_no_face_keeps_streaming (s : Session) (h : Nat)
    (hrec : s.isRecording = true) (hsrc : s.srcObject = some h) :
    ∃ s1, run s [.captureClick, .detectSettled (some [])] = some s1 ∧
      s1.isRecording = true ∧
      s1.srcObject = some h ∧
      s1.streams = s.streams ∧
      s1.uncaught = s.uncaught ∧
      s1.error = "No face detected. Please try again." := by
  refine ⟨{ s with error := "No face detected. Please try again." }, ?_, hrec, hsrc,
    rfl, rfl, rfl⟩
  simp [run, step, offered, handle, hrec, captureEmotion, settle]

/-- C2 at a session that streams one live track. -/
theorem capture_no_face_keeps_streaming_witness :
    streamingSession.isRecording = true ∧ streamingSession.srcObject = some 0 ∧
    ∃ s1, run streamingSession [.captureClick, .detectSettled (some [])] = some s1 ∧
      s1.isRecording = true ∧
      s1.srcObject = some 0 ∧
      s1.streams = streamingSession.streams ∧
      s1.uncaught = streamingSession.uncaught ∧
      s1.error = "No face detected. Please try again." :=
  ⟨rfl, rfl, capture_no_face_keeps_streaming streamingSession 0 rfl rfl⟩

/-- C3 as stated fails.  After start, a capture that finds a happy face, cancel
and a capture that finds no face, the label is still "happy" although the
confirmation is closed; and when the second capture follows the first without
a cancel, the confirmation is still open after the pass that found no face. -/
theorem capture_no_face_keeps_old_label :
    (run (mount none)
        [.startClick, .modelsSettled true true, .cameraGranted 1,
         .captureClick, .detectSettled (some [happyFace]), .cancelClick,
         .captureClick, .detectSettled (some [])]).map
      (fun s => (s.emotion, s.confirmEmotion)) = some ("happy", false) ∧
    (run (mount none)
        [.startClick, .modelsSettled true true, .cameraGranted 1,
         .captureClick, .detectSettled (some [happyFace]),
         .captureClick, .detectSettled (some [])]).map
      (fun s => (s.emotion, s.confirmEmotion)) = some ("happy", true) := by
  constructor <;>
    simp [run, step, offered, handle, settle, mount, Session.initial,
      startRecording_begin, startRecording_afterModels, loadModels,
      getUserMedia_then, captureEmotion, topEmotion_happyFace]

/-- C3 amended: whatever events came before, the arrival of a detector result
with zero faces leaves the label and the confirmation flag exactly as they
were just before it, throws nothing, and sets the error message. -/
theorem capture_no_face_keeps_label_and_flag (s0 s s1 : Session) (evs : List Event)
    (hbefore : run s0 evs = some s)
    (hafter : run s0 (evs ++ [.detectSettled (some [])]) = some s1) :
    s1.emotion = s.emotion ∧
    s1.confirmEmotion = s.confirmEmotion ∧
    s1.uncaught = s.uncaught ∧
    s1.error = "No face detected. Please try again." := by
  rw [run_append, hbefore, Option.some_bind, run_singleton] at hafter
  unfold step at hafter
  split at hafter
  · simp only [handle, captureEmotion, settle, Option.some.injEq] at hafter
    subst hafter
    exact ⟨rfl, rfl, rfl, rfl⟩
  · simp at hafter

/-- C3 amended, at the run in which a happy face is found, the dialog is
cancelled and the next capture finds no face. -/
theorem capture_no_face_keeps_label_and_flag_witness :
    ∃ s s1,
      run (mount none)
        [.startClick, .modelsSettled true true, .cameraGranted 1,
         .captureClick, .detectSettled (some [happyFace]), .cancelClick,
         .captureClick] = some s ∧
      run (mount none)
        ([.startClick, .modelsSettled true true, .cameraGranted 1,
          .captureClick, .detectSettled (some [happyFace]), .cancelClick,
          .captureClick] ++ [.detectSettled (some [])]) = some s1 ∧
      s1.emotion = s.emotion ∧
      s1.confirmEmotion = s.confirmEmotion ∧
      s1.uncaught = s.uncaught ∧
      s1.error = "No face detected. Please try again." := by
  have hbefore : ∃ s, run (mount none)
        [.startClick, .modelsSettled true true, .cameraGranted 1,
         .captureClick, .detectSettled (some [happyFace]), .cancelClick,
         .captureClick] = some s := by
    simp [run, step, offered, handle, settle, mount, Session.initial,
      startRecording_begin, startRecording_afterModels, loadModels,
      getUserMedia_then, captureEmotion, topEmotion_happyFace]
  have hafter : ∃ s1, run (mount none)
        ([.startClick, .modelsSettled true true, .cameraGranted 1,
          .captureClick, .detectSettled (some [happyFace]), .cancelClick,
          .captureClick] ++ [.detectSettled (some [])]) = some s1 := by
    simp [run, step, offered, handle, settle, mount, Session.initial,
      startRecording_begin, startRecording_afterModels, loadModels,
      getUserMedia_then, captureEmotion, topEmotion_happyFace]
  obtain ⟨s, hs⟩ := hbefore
  obtain ⟨s1, hs1⟩ := hafter
  exact ⟨s, s1, hs, hs1,
    capture_no_face_keeps_label_and_flag (mount none) s s1 _ hs hs1⟩

/-! ## Confirm and save -/

theorem eraseIdx_concat_length {α : Type} (l : List α) (x : α) :
    (l ++ [x]).eraseIdx l.length = l := by
  induction l with
  | nil => rfl
  | cons a rest ih => simp [List.eraseIdx, ih]

theorem getElem?_concat_length {α : Type} (l : List α) (x : α) :
    (l ++ [x])[l.length]? = some x := by
  induction l with
  | nil => rfl
  | cons a rest ih => simp [ih]

/-- A click on confirm followed by the settling of the `addEmotion` call it
issued is the function `confirmAndSaveEmotion` run to completion. -/
theorem run_confirm_then_settle (s : Session) (saved : Bool)
    (hopen : s.confirmEmotion = true) (huser : s.userId.truthy = true) :
    run s [.confirmClick, .saveSettled s.pendingSaves.length saved]
      = some (confirmAndSaveEmotion s saved) := by
  cases s
  simp only at hopen huser
  subst hopen
  simp [run, step, offered, handle, huser, confirmAndSaveEmotion_begin,
    confirmAndSaveEmotion, getElem?_concat_length, eraseIdx_concat_length]

/-- C4: when the dialog is open for a known user and the `addEmotion` call
issued by the confirm click fails, nothing changes but the error message: the
dialog stays open with the same label, the stream stays bound with its tracks
untouched, no history fetch is issued, the message is not empty, and confirm
is still offered. -/
theorem confirm_save_failure_keeps_dialog (s : Session)
    (hopen : s.confirmEmotion = true) (huser : s.userId.truthy = true) :
    ∃ s1, run s [.confirmClick, .saveSettled s.pendingSaves.length false] = some s1 ∧
      s1 = { s with error := "Failed to save emotion. Please try again." } ∧
      s1.confirmEmotion = true ∧
      s1.emotion = s.emotion ∧
      s1.isRecording = s.isRecording ∧
      s1.srcObject = s.srcObject ∧
      s1.streams = s.streams ∧
      s1.pendingFetch = s.pendingFetch ∧
      s1.error ≠ "" ∧
      offered s1 .confirmClick = true := by
  refine ⟨{ s with error := "Failed to save emotion. Please try again." }, ?_, rfl,
    hopen, rfl, rfl, rfl, rfl, rfl, by simp, hopen⟩
  rw [run_confirm_then_settle s false hopen huser]
  simp [confirmAndSaveEmotion, confirmAndSaveEmotion_resume, huser]

/-- C4 at a streaming session whose dialog shows "happy" to user 7. -/
theorem confirm_save_failure_keeps_dialog_witness :
    confirmingSession.confirmEmotion = true ∧
    confirmingSession.userId.truthy = true ∧
    ∃ s1, run confirmingSession
        [.confirmClick, .saveSettled confirmingSession.pendingSaves.length false]
        = some s1 ∧
      s1 = { confirmingSession with error := "Failed to save emotion. Please try again." } ∧
      s1.confirmEmotion = true ∧
      s1.emotion = confirmingSession.emotion ∧
      s1.isRecording = confirmingSession.isRecording ∧
      s1.srcObject = confirmingSession.srcObject ∧
      s1.streams = confirmingSession.streams ∧
      s1.pendingFetch = confirmingSession.pendingFetch ∧
      s1.error ≠ "" ∧
      offered s1 .confirmClick = true :=
  ⟨rfl, by decide, confirm_save_failure_keeps_dialog confirmingSession rfl (by decide)⟩

/-- C5: when the dialog is open for a known user, a stream is bound, and the
`addEmotion` call issued by the confirm click succeeds, the dialog is closed,
every track of the bound stream is stopped, the sink is unbound, `isRecording`
and the error message are cleared, exactly one history fetch is issued, for
that user, and the visible history is left as it was; when that fetch is
answered, the visible history is the rows built from the answer alone. -/
theorem confirm_save_success_releases_and_refetches (s : Session) (h : Nat)
    (hopen : s.confirmEmotion = true) (huser : s.userId.truthy = true)
    (hsrc : s.srcObject = some h) :
    ∃ s1, run s [.confirmClick, .saveSettled s.pendingSaves.length true] = some s1 ∧
      s1.confirmEmotion = false ∧
      s1.isRecording = false ∧
      s1.srcObject = none ∧
      fullyStopped (s1.tracksOf h) = true ∧
      s1.error = "" ∧
      s1.pendingFetch = s.pendingFetch ++ [s.userId] ∧
      s1.pendingSaves = s.pendingSaves ∧
      s1.emotionHistory = s.emotionHistory ∧
      ∀ records,
        run s1 [.fetchSettled s.pendingFetch.length (some records)]
          = some { s1 with pendingFetch := s.pendingFetch,
                           emotionHistory := toRows records } := by
  refine ⟨{ s with confirmEmotion := false, isRecording := false, srcObject := none,
                   streams := stopTracksAt s.streams h, error := "",
                   pendingFetch := s.pendingFetch ++ [s.userId] },
    ?_, rfl, rfl, rfl, ?_, rfl, rfl, rfl, rfl, ?_⟩
  · rw [run_confirm_then_settle s true hopen huser]
    simp [confirmAndSaveEmotion, confirmAndSaveEmotion_resume, huser,
      confirmAndSaveEmotion_finish, fetchEmotionHistory_begin, stopRecording, hsrc]
  · simp only [Session.tracksOf]
    exact fullyStopped_stopTracksAt s.streams h
  · intro records
    simp [run_singleton, step, offered, handle, fetchEmotionHistory_resume,
      eraseIdx_concat_length]

/-- C5 at a streaming session whose dialog shows "happy" to user 7: the one
live track is stopped and one fetch for user 7 is outstanding. -/
theorem confirm_save_success_releases_and_refetches_witness :
    confirmingSession.confirmEmotion = true ∧
    confirmingSession.userId.truthy = true ∧
    confirmingSession.srcObject = some 0 ∧
    ∃ s1, run confirmingSession
        [.confirmClick, .saveSettled confirmingSession.pendingSaves.length true]
        = some s1 ∧
      s1.confirmEmotion = false ∧
      s1.isRecording = false ∧
      s1.srcObject = none ∧
      fullyStopped (s1.tracksOf 0) = true ∧
      s1.error = "" ∧
      s1.pendingFetch = confirmingSession.pendingFetch ++ [confirmingSession.userId] ∧
      s1.pendingSaves = confirmingSession.pendingSaves ∧
      s1.emotionHistory = confirmingSession.emotionHistory ∧
      ∀ records,
        run s1 [.fetchSettled confirmingSession.pendingFetch.length (some records)]
          = some { s1 with pendingFetch := confirmingSession.pendingFetch,
                           emotionHistory := toRows records } :=
  ⟨rfl, by decide, rfl,
   confirm_save_success_releases_and_refetches confirmingSession 0 rfl (by decide) rfl⟩

/-! ## Stale results, release and start -/

/-- C6 as stated fails.  Start, bind a stream, click capture, click stop, and
only then let the detector answer with a happy face: the session is not
recording and has no stream, yet the dialog opens with the label "happy". -/
theorem stale_detection_opens_dialog :
    (run (mount none)
        [.startClick, .modelsSettled true true, .cameraGranted 1,
         .captureClick, .stopClick, .detectSettled (some [happyFace])]).map
      (fun s => (s.isRecording, s.srcObject, s.confirmEmotion, s.emotion))
      = some (false, none, true, "happy") := by
  simp [run, step, offered, handle, settle, mount, Session.initial,
    startRecording_begin, startRecording_afterModels, loadModels,
    getUserMedia_then, stopRecording, captureEmotion, topEmotion_happyFace]

/-- C6 amended: when stop is clicked in a streaming session while a detection
is outstanding, and the detector then answers with at least one face (whose
expressions have a key), the answer is applied, not dropped: the session
stays not recording with no stream bound, but the dialog opens and the label
becomes the top expression of the first detection. -/
theorem stale_detection_is_applied (s : Session) (h : Nat) (first : Detection)
    (rest : List Detection)
    (hrec : s.isRecording = true) (hsrc : s.srcObject = some h)
    (hpending : 0 < s.pendingDetect) (hkeys : first.keys ≠ []) :
    ∃ s1, run s [.stopClick, .detectSettled (some (first :: rest))] = some s1 ∧
      s1.isRecording = false ∧
      s1.srcObject = none ∧
      s1.confirmEmotion = true ∧
      topEmotion first = .ok s1.emotion ∧
      s1.uncaught = s.uncaught := by
  cases hk : first.keys with
  | nil => exact absurd hk hkeys
  | cons k ks =>
    refine ⟨{ s with streams := stopTracksAt s.streams h, srcObject := none,
                     isRecording := false, pendingDetect := s.pendingDetect - 1,
                     emotion := ks.foldl (pickHigher first) k,
                     confirmEmotion := true }, ?_, rfl, rfl, rfl, ?_, rfl⟩
    · simp [run, step, offered, handle, settle, stopRecording, hrec, hsrc, hpending,
        captureEmotion, topEmotion, hk]
    · simp [topEmotion, hk]

/-- C6 amended, at a streaming session with one detection outstanding and a
happy face as the late answer. -/
theorem stale_detection_is_applied_witness :
    ∃ s1, run { streamingSession with pendingDetect := 1 }
        [.stopClick, .detectSettled (some (happyFace :: []))] = some s1 ∧
      s1.isRecording = false ∧
      s1.srcObject = none ∧
      s1.confirmEmotion = true ∧
      topEmotion happyFace = .ok s1.emotion ∧
      s1.uncaught = streamingSession.uncaught :=
  stale_detection_is_applied { streamingSession with pendingDetect := 1 } 0 happyFace []
    rfl rfl (by decide) (by simp [happyFace, Detection.keys])

/-- C7 fails in the code.  On a session that never had a stream,
`stopRecording` throws.  Through the page: a click on stop right after a click
on start (the camera request has not settled, so nothing is bound) lets that
exception escape and leaves the session recording; and when the stream was
already stopped while the dialog is open, a confirm whose save succeeds (the
history fetch is issued) runs into the same exception and reports
"Failed to save emotion. Please try again.". -/
theorem stopRecording_throws_without_stream :
    stopRecording (mount none)
      = .error "TypeError: Cannot read properties of null (reading getTracks)" ∧
    (run (mount none) [.startClick, .stopClick]).map
      (fun s => (s.isRecording, s.srcObject, s.uncaught))
      = some (true, none,
          ["TypeError: Cannot read properties of null (reading getTracks)"]) ∧
    (run (mount (some [("id", JsValue.num 7)]))
        [.fetchSettled 0 (some []),
         .startClick, .modelsSettled true true, .cameraGranted 1,
         .captureClick, .detectSettled (some [happyFace]), .stopClick,
         .confirmClick, .saveSettled 0 true]).map
      (fun s => (s.srcObject, s.pendingFetch, s.error))
      = some (none, [JsValue.num 7], "Failed to save emotion. Please try again.") := by
  refine ⟨rfl, ?_, ?_⟩
  · simp [run, step, offered, handle, settle, mount, Session.initial,
      startRecording_begin, stopRecording]
  · simp [run, step, offered, handle, settle, mount, Session.initial, JsObject.get,
      List.lookup, fetchEmotionHistory_begin, fetchEmotionHistory_resume, toRows,
      toRowsFrom, startRecording_begin, startRecording_afterModels, loadModels,
      getUserMedia_then, stopRecording, stopTracksAt, captureEmotion,
      topEmotion_happyFace, confirmAndSaveEmotion_begin, confirmAndSaveEmotion_resume,
      confirmAndSaveEmotion_finish, JsValue.truthy]

/-- C8 as stated fails: after a rejected camera request the error message is
the sentence of the `.catch` callback, not "camera access denied". -/
theorem camera_rejected_message_differs :
    (startRecording Session.initial true (some .rejected)).error
      = "Camera access denied. Please allow camera permissions." ∧
    (startRecording Session.initial true (some .rejected)).error
      ≠ "camera access denied" := by
  constructor
  · rfl
  · simp [startRecording, startRecording_begin, startRecording_afterModels, loadModels,
      getUserMedia_catch, Session.initial]

/-- C8 amended: in an idle session, a click on start whose camera request is
rejected ends not recording, with no stream bound and no stream created, and
with the error message "Camera access denied. Please allow camera
permissions.", whether or not the models loaded. -/
theorem camera_rejected_ends_idle (s : Session) (loaded : Bool)
    (hrec : s.isRecording = false) (hsrc : s.srcObject = none) :
    run s [.startClick, .modelsSettled loaded true, .cameraRejected]
      = some (startRecording s loaded (some .rejected)) ∧
    (startRecording s loaded (some .rejected)).isRecording = false ∧
    (startRecording s loaded (some .rejected)).srcObject = none ∧
    (startRecording s loaded (some .rejected)).streams = s.streams ∧
    (startRecording s loaded (some .rejected)).error
      = "Camera access denied. Please allow camera permissions." := by
  refine ⟨?_, rfl, ?_, ?_, ?_⟩
  · simp [run, step, offered, handle, hrec, startRecording, startRecording_begin,
      startRecording_afterModels, loadModels]
  · cases loaded <;>
      simpa [startRecording, startRecording_begin, startRecording_afterModels,
        loadModels, getUserMedia_catch] using hsrc
  · cases loaded <;>
      simp [startRecording, startRecording_begin, startRecording_afterModels,
        loadModels, getUserMedia_catch]
  · cases loaded <;>
      simp [startRecording, startRecording_begin, startRecording_afterModels,
        loadModels, getUserMedia_catch]

/-- C8 amended, at the freshly mounted dashboard with the models loaded. -/
theorem camera_rejected_ends_idle_witness :
    Session.initial.isRecording = false ∧ Session.initial.srcObject = none ∧
    run Session.initial [.startClick, .modelsSettled true true, .cameraRejected]
      = some (startRecording Session.initial true (some .rejected)) ∧
    (startRecording Session.initial true (some .rejected)).isRecording = false ∧
    (startRecording Session.initial true (some .rejected)).srcObject = none ∧
    (startRecording Session.initial true (some .rejected)).streams
      = Session.initial.streams ∧
    (startRecording Session.initial true (some .rejected)).error
      = "Camera access denied. Please allow camera permissions." :=
  ⟨rfl, rfl, camera_rejected_ends_idle Session.initial true rfl rfl⟩

/-! ## At most one live stream -/

theorem stopTracksAt_concat_length (old : List (List Bool)) (cur : List Bool) :
    stopTracksAt (old ++ [cur]) old.length = old ++ [cur.map (fun _ => false)] := by
  induction old with
  | nil => rfl
  | cons a rest ih => simp [stopTracksAt, ih]

theorem fullyStopped_map_false (tracks : List Bool) :
    fullyStopped (tracks.map (fun _ => false)) = true := by
  simp [fullyStopped]

/-- The invariant only reads the camera fields of the session. -/
theorem CameraInv_of_fields {s t : Session} (hs : CameraInv s)
    (h1 : t.isRecording = s.isRecording) (h2 : t.srcObject = s.srcObject)
    (h3 : t.streams = s.streams) (h4 : t.pendingModels = s.pendingModels)
    (h5 : t.pendingCamera = s.pendingCamera) : CameraInv t := by
  unfold CameraInv at hs ⊢
  rw [h1, h2, h3, h4, h5]
  exact hs

theorem CameraInv_mount (user : Option JsObject) : CameraInv (mount user) := by
  cases user <;>
    simp [CameraInv, mount, Session.initial, fetchEmotionHistory_begin]

theorem CameraInv_stopRecording {s s1 : Session} (hs : CameraInv s)
    (hstop : stopRecording s = .ok s1) : CameraInv s1 := by
  unfold stopRecording at hstop
  cases hsrc : s.srcObject with
  | none => simp [hsrc] at hstop
  | some h =>
    simp only [hsrc, Except.ok.injEq] at hstop
    subst hstop
    obtain ⟨_, hle, hpend, hstreams⟩ := hs
    have hzero : s.pendingModels + s.pendingCamera = 0 := by
      rcases Nat.eq_zero_or_pos (s.pendingModels + s.pendingCamera) with h0 | h0
      · exact h0
      · rw [hpend h0] at hsrc
        cases hsrc
    refine ⟨fun _ => ⟨rfl, by simp only; omega, by simp only; omega⟩, hle,
      fun _ => rfl, Or.inl ⟨rfl, ?_⟩⟩
    rcases hstreams with ⟨hnone, _⟩ | ⟨old, cur, hst, hbound, hold⟩
    · rw [hnone] at hsrc
      cases hsrc
    · have hh : h = old.length := by
        rw [hbound] at hsrc
        exact (Option.some.inj hsrc).symm
      intro tracks htracks
      simp only [hst, hh, stopTracksAt_concat_length, List.mem_append,
        List.mem_singleton] at htracks
      rcases htracks with hmem | heq
      · exact hold tracks hmem
      · rw [heq]
        exact fullyStopped_map_false cur

theorem CameraInv_finish {s : Session} (hs : CameraInv s) :
    CameraInv (confirmAndSaveEmotion_finish s) := by
  have hs1 : CameraInv { s with confirmEmotion := false } :=
    CameraInv_of_fields hs rfl rfl rfl rfl rfl
  unfold confirmAndSaveEmotion_finish
  simp only
  cases hstop : stopRecording { s with confirmEmotion := false } with
  | error e => exact CameraInv_of_fields hs1 rfl rfl rfl rfl rfl
  | ok s2 =>
    exact CameraInv_of_fields (CameraInv_stopRecording hs1 hstop) rfl rfl rfl rfl rfl

theorem CameraInv_handle {s : Session} (e : Event) (hs : CameraInv s)
    (hoff : offered s e = true) : CameraInv (handle s e) := by
  cases e with
  | startClick =>
    simp only [offered, Bool.not_eq_true'] at hoff
    obtain ⟨hidle, _, _, hstreams⟩ := hs
    obtain ⟨hsrc, hm, hc⟩ := hidle hoff
    refine ⟨?_, ?_, fun _ => hsrc, hstreams⟩
    · intro hfalse
      simp [handle, startRecording_begin] at hfalse
    · simp only [handle, startRecording_begin]
      omega
  | modelsSettled loaded hasGetUserMedia =>
    simp only [offered, decide_eq_true_eq] at hoff
    obtain ⟨hidle, hle, hpend, hstreams⟩ := hs
    have hsrc : s.srcObject = none := hpend (by omega)
    have hrec : s.isRecording = true := by
      cases hr : s.isRecording with
      | true => rfl
      | false =>
        have := (hidle hr).2.1
        omega
    cases loaded <;> cases hasGetUserMedia <;>
      simp only [handle, startRecording_afterModels, loadModels, CameraInv] <;>
      refine ⟨?_, ?_, fun _ => hsrc, hstreams⟩ <;>
      first
        | (intro hfalse; simp only [Bool.false_eq_true, if_false, if_true] at hfalse
           rw [hrec] at hfalse; cases hfalse)
        | (simp only [Bool.false_eq_true, if_false, if_true]; omega)
  | cameraGranted trackCount =>
    simp only [offered, decide_eq_true_eq] at hoff
    obtain ⟨hidle, hle, hpend, hstreams⟩ := hs
    have hsrc : s.srcObject = none := hpend (by omega)
    have hrec : s.isRecording = true := by
      cases hr : s.isRecording with
      | true => rfl
      | false =>
        have := (hidle hr).2.2
        omega
    refine ⟨?_, ?_, ?_, Or.inr ⟨s.streams, List.replicate trackCount true, rfl, rfl, ?_⟩⟩
    · intro hfalse
      simp only [handle, getUserMedia_then] at hfalse
      rw [hrec] at hfalse
      cases hfalse
    · simp only [handle, getUserMedia_then]
      omega
    · intro hpos
      simp only [handle, getUserMedia_then] at hpos
      omega
    · rcases hstreams with ⟨_, hall⟩ | ⟨old, cur, _, hbound, _⟩
      · exact hall
      · rw [hsrc] at hbound
        cases hbound
  | cameraRejected =>
    simp only [offered, decide_eq_true_eq] at hoff
    obtain ⟨hidle, hle, hpend, hstreams⟩ := hs
    have hsrc : s.srcObject = none := hpend (by omega)
    refine ⟨fun _ => ⟨hsrc, ?_, ?_⟩, ?_, fun _ => hsrc, hstreams⟩ <;>
      simp only [handle, getUserMedia_catch] <;> omega
  | captureClick => exact CameraInv_of_fields hs rfl rfl rfl rfl rfl
  | detectSettled result =>
    have hs1 : CameraInv { s with pendingDetect := s.pendingDetect - 1 } :=
      CameraInv_of_fields hs rfl rfl rfl rfl rfl
    simp only [handle]
    rcases result with _ | _ | ⟨first, rest⟩
    · exact CameraInv_of_fields hs1 rfl rfl rfl rfl rfl
    · exact CameraInv_of_fields hs1 rfl rfl rfl rfl rfl
    · simp only [captureEmotion]
      cases topEmotion first with
      | error e => exact CameraInv_of_fields hs1 rfl rfl rfl rfl rfl
      | ok label => exact CameraInv_of_fields hs1 rfl rfl rfl rfl rfl
  | stopClick =>
    simp only [handle]
    cases hstop : stopRecording s with
    | error e => exact CameraInv_of_fields hs rfl rfl rfl rfl rfl
    | ok s1 => exact CameraInv_stopRecording hs hstop
  | confirmClick =>
    simp only [handle, confirmAndSaveEmotion_begin]
    split
    · exact CameraInv_of_fields hs rfl rfl rfl rfl rfl
    · exact CameraInv_finish hs
  | cancelClick => exact CameraInv_of_fields hs rfl rfl rfl rfl rfl
  | saveSettled index saved =>
    simp only [handle]
    cases s.pendingSaves[index]? with
    | none => exact hs
    | some payload =>
      simp only [confirmAndSaveEmotion_resume]
      split
      · exact CameraInv_finish (CameraInv_of_fields hs rfl rfl rfl rfl rfl)
      · exact CameraInv_of_fields hs rfl rfl rfl rfl rfl
  | fetchSettled index response =>
    simp only [handle, fetchEmotionHistory_resume]
    cases response with
    | none => exact CameraInv_of_fields hs rfl rfl rfl rfl rfl
    | some records => exact CameraInv_of_fields hs rfl rfl rfl rfl rfl

theorem CameraInv_run {s s1 : Session} (evs : List Event) (hs : CameraInv s)
    (hrun : run s evs = some s1) : CameraInv s1 := by
  induction evs generalizing s with
  | nil =>
    simp only [run, Option.some.injEq] at hrun
    exact hrun ▸ hs
  | cons e rest ih =>
    simp only [run] at hrun
    unfold step at hrun
    by_cases hoff : offered s e = true
    · simp only [hoff, if_true] at hrun
      exact ih (CameraInv_handle e hs hoff) hrun
    · simp [hoff] at hrun

theorem filter_live_eq_nil (streams : List (List Bool))
    (hall : ∀ tracks ∈ streams, fullyStopped tracks = true) :
    streams.filter (fun tracks => !fullyStopped tracks) = [] := by
  rw [List.filter_eq_nil_iff]
  intro tracks hmem
  simp [hall tracks hmem]

/-- C9: in every state the dashboard reaches from its mount through events it
offers, at most one stream has a live track; every stream other than the one
bound to the sink has all its tracks stopped; and whenever a camera request
can be granted, every stream handed out earlier has all its tracks stopped, so
a release of the earlier stream lies between any two acquisitions. -/
theorem at_most_one_live_stream (user : Option JsObject) (evs : List Event)
    (s : Session) (hrun : run (mount user) evs = some s) :
    liveStreamCount s ≤ 1 ∧
    (∀ h tracks, s.streams[h]? = some tracks → s.srcObject ≠ some h →
      fullyStopped tracks = true) ∧
    (∀ trackCount s1, step s (.cameraGranted trackCount) = some s1 →
      (∀ tracks ∈ s.streams, fullyStopped tracks = true) ∧
      liveStreamCount s = 0) := by
  obtain ⟨_, _, hpend, hstreams⟩ := CameraInv_run evs (CameraInv_mount user) hrun
  refine ⟨?_, ?_, ?_⟩
  · unfold liveStreamCount
    rcases hstreams with ⟨_, hall⟩ | ⟨old, cur, hst, _, hold⟩
    · simp [filter_live_eq_nil s.streams hall]
    · rw [hst, List.filter_append, filter_live_eq_nil old hold]
      simp only [List.nil_append]
      exact le_trans (List.length_filter_le _ _) (by simp)
  · intro h tracks hget hne
    rcases hstreams with ⟨_, hall⟩ | ⟨old, cur, hst, hbound, hold⟩
    · exact hall tracks (List.getElem?_mem hget)
    · rw [hst] at hget
      by_cases hlt : h < old.length
      · rw [List.getElem?_append_left hlt] at hget
        exact hold tracks (List.getElem?_mem hget)
      · by_cases heq : h = old.length
        · rw [hbound, heq] at hne
          exact absurd rfl hne
        · have hlen : (old ++ [cur]).length ≤ h := by
            simp only [List.length_append, List.length_singleton]
            omega
          rw [List.getElem?_eq_none hlen] at hget
          cases hget
  · intro trackCount s1 hstep
    unfold step at hstep
    by_cases hoff : offered s (.cameraGranted trackCount) = true
    · simp only [offered, decide_eq_true_eq] at hoff
      have hsrc : s.srcObject = none := hpend (by omega)
      rcases hstreams with ⟨_, hall⟩ | ⟨old, cur, _, hbound, _⟩
      · exact ⟨hall, by simp [liveStreamCount, filter_live_eq_nil s.streams hall]⟩
      · rw [hsrc] at hbound
        cases hbound
    · simp [hoff] at hstep

/-- C9 at a run with two acquisitions: start, stream granted, stop, start,
stream granted.  The first stream is stopped, the second is live and bound. -/
theorem at_most_one_live_stream_witness :
    ∃ s, run (mount none)
        [.startClick, .modelsSettled true true, .cameraGranted 1, .stopClick,
         .startClick, .modelsSettled true true, .cameraGranted 1] = some s ∧
      s.streams = [[false], [true]] ∧
      s.srcObject = some 1 ∧
      liveStreamCount s ≤ 1 ∧
      (∀ h tracks, s.streams[h]? = some tracks → s.srcObject ≠ some h →
        fullyStopped tracks = true) ∧
      (∀ trackCount s1, step s (.cameraGranted trackCount) = some s1 →
        (∀ tracks ∈ s.streams, fullyStopped tracks = true) ∧
        liveStreamCount s = 0) := by
  have hrun : ∃ s, run (mount none)
        [.startClick, .modelsSettled true true, .cameraGranted 1, .stopClick,
         .startClick, .modelsSettled true true, .cameraGranted 1] = some s ∧
      s.streams = [[false], [true]] ∧ s.srcObject = some 1 := by
    simp [run, step, offered, handle, settle, mount, Session.initial,
      startRecording_begin, startRecording_afterModels, loadModels,
      getUserMedia_then, stopRecording, stopTracksAt]
  obtain ⟨s, hs, hstreams, hsrc⟩ := hrun
  exact ⟨s, hs, hstreams, hsrc, at_most_one_live_stream none _ s hs⟩

/-! ## The enrollment camera -/

/-- C10 fails in the code.  After a successful registration the effect runs
in a render whose `cameraStream` is still `null`, and the cleanup it returns
is the `stopCamera` of that render.  When the camera is then granted, with
any number of tracks, and bound to the video, and the page unmounts, the
cleanup finds its `cameraStream` to be `null` and stops nothing: every track
of the bound stream is still live. -/
theorem unmount_leaves_stream_live (trackCount : Nat) :
    runReg Registration.mounted0
        [.registered, .cameraSettled (.granted trackCount), .unmounted]
      = some
        { isFlipped := true, cameraStream := some 0, error := "",
          videoMounted := false, srcObject := some 0,
          streams := [List.replicate trackCount true], pendingCamera := 0,
          cleanup := none, mounted := false } := by
  simp [runReg, stepReg, Registration.mounted0, commitEffect, stopCamera,
    startCamera_begin, startCamera_resume, unmount]

/-! ## The history rows -/

theorem get_set_same (o : JsObject) (key : String) (v : JsValue) :
    (JsObject.set o key v).get key = v := by
  induction o with
  | nil => simp [JsObject.set, JsObject.get, List.lookup]
  | cons p rest ih =>
    obtain ⟨k, w⟩ := p
    unfold JsObject.set
    by_cases hk : k = key
    · simp [hk, JsObject.get, List.lookup]
    · have hne : (key == k) = false := by
        simpa using fun h => hk h.symm
      simp only [hk, if_false, JsObject.get, List.lookup, hne]
      exact ih

theorem get_set_other (o : JsObject) (key other : String) (v : JsValue)
    (hne : other ≠ key) : (JsObject.set o key v).get other = o.get other := by
  induction o with
  | nil =>
    have h : (other == key) = false := by simpa using hne
    simp [JsObject.set, JsObject.get, List.lookup, h]
  | cons p rest ih =>
    obtain ⟨k, w⟩ := p
    unfold JsObject.set
    by_cases hk : k = key
    · have h : (other == k) = false := by
        rw [hk]
        simpa using hne
      simp [hk, JsObject.get, List.lookup, h]
      have h2 : (other == key) = false := by simpa using hne
      simp [h2]
    · simp only [hk, if_false, JsObject.get, List.lookup]
      cases hok : other == k with
      | true => rfl
      | false => exact ih

/-- A key the spread object does not have keeps the value of the base. -/
theorem get_spread_absent (base extra : JsObject) (key : String)
    (habsent : key ∉ extra.keys) : (JsObject.spread base extra).get key = base.get key := by
  induction extra generalizing base with
  | nil => rfl
  | cons p rest ih =>
    obtain ⟨k, w⟩ := p
    simp only [JsObject.keys, List.map_cons, List.mem_cons, not_or] at habsent
    have hrest : key ∉ JsObject.keys rest := habsent.2
    have h := ih (JsObject.set base k w) hrest
    simp only [JsObject.spread, List.foldl_cons] at h ⊢
    rw [h]
    exact get_set_other base k key w habsent.1

/-- A key the spread object has takes its value from it. -/
theorem get_spread_present (base extra : JsObject) (key : String)
    (hwf : extra.keys.Nodup) (hpresent : key ∈ extra.keys) :
    (JsObject.spread base extra).get key = extra.get key := by
  induction extra generalizing base with
  | nil => simp [JsObject.keys] at hpresent
  | cons p rest ih =>
    obtain ⟨k, w⟩ := p
    simp only [JsObject.keys, List.map_cons, List.nodup_cons] at hwf
    simp only [JsObject.keys, List.map_cons, List.mem_cons] at hpresent
    by_cases hk : key = k
    · subst hk
      have h := get_spread_absent (JsObject.set base key w) rest key hwf.1
      simp only [JsObject.spread, List.foldl_cons] at h ⊢
      rw [h, get_set_same]
      simp [JsObject.get, List.lookup]
    · have hmem : key ∈ JsObject.keys rest := by
        rcases hpresent with h | h
        · exact absurd h hk
        · exact h
      have h := ih (JsObject.set base k w) hwf.2 hmem
      simp only [JsObject.spread, List.foldl_cons] at h ⊢
      rw [h]
      have hne : (key == k) = false := by simpa using hk
      simp [JsObject.get, List.lookup, hne]

/-- A key other than `id` reads the same in the row as in the record. -/
theorem get_row_field (index : Int) (record : JsObject) (key : String)
    (hwf : record.keys.Nodup) (hkey : key ≠ "id") :
    (JsObject.spread [("id", JsValue.num index)] record).get key = record.get key := by
  by_cases hmem : key ∈ record.keys
  · exact get_spread_present _ record key hwf hmem
  · rw [get_spread_absent _ record key hmem]
    have hne : (key == "id") = false := by simpa using hkey
    have hnone : List.lookup key record = none := by
      rw [List.lookup_eq_none_iff]
      intro q hq
      have hq1 : q.1 ∈ JsObject.keys record := List.mem_map_of_mem Prod.fst hq
      have hkq : key ≠ q.1 := fun heq => hmem (heq ▸ hq1)
      simpa using hkq
    simp [JsObject.get, List.lookup, hne, hnone]

theorem length_toRowsFrom (start : Nat) (records : List JsObject) :
    (toRowsFrom start records).length = records.length := by
  induction records generalizing start with
  | nil => rfl
  | cons r rest ih => simp [toRowsFrom, ih]

theorem getElem?_toRowsFrom (start i : Nat) (records : List JsObject) :
    (toRowsFrom start records)[i]?
      = (records[i]?).map
          (fun record => JsObject.spread [("id", JsValue.num ((start + i : Nat) + 1))] record) := by
  induction records generalizing start i with
  | nil => simp [toRowsFrom]
  | cons r rest ih =>
    cases i with
    | zero => simp [toRowsFrom]
    | succ n =>
      simp only [toRowsFrom, List.getElem?_cons_succ]
      rw [ih (start + 1) n]
      have hidx : start + 1 + n = start + (n + 1) := by omega
      rw [hidx]

theorem nodup_of_wellFormed {records : List JsObject}
    (hwf : ∀ record ∈ records, record.wellFormed = true) {i : Nat} {record : JsObject}
    (hget : records[i]? = some record) : record.keys.Nodup := by
  have h := hwf record (List.getElem?_mem hget)
  simpa [JsObject.wellFormed] using h

/-- C11: when `getEmotion` answers with a list of records (each an object, so
without a repeated key), `fetchEmotionHistory` sets the visible history to a
list of the same length, and so is the table; for every index `i`, row `i`
carries the emotion and the timestamp of record `i`, and line `i` of the table
shows them: nothing is dropped, duplicated or reordered. -/
theorem fetch_keeps_records_in_order (s : Session) (records : List JsObject)
    (hwf : ∀ record ∈ records, record.wellFormed = true) :
    (fetchEmotionHistory_resume s (some records)).emotionHistory.length = records.length ∧
    (historyTable (fetchEmotionHistory_resume s (some records))).length = records.length ∧
    ∀ (i : Nat) (record : JsObject), records[i]? = some record →
      ∃ row : JsObject, (fetchEmotionHistory_resume s (some records)).emotionHistory[i]? = some row ∧
        row.get "emotion" = record.get "emotion" ∧
        row.get "timestamp" = record.get "timestamp" ∧
        (historyTable (fetchEmotionHistory_resume s (some records)))[i]?
          = some (row.get "id", record.get "emotion", record.get "timestamp") := by
  have hhist : (fetchEmotionHistory_resume s (some records)).emotionHistory
      = toRowsFrom 0 records := rfl
  refine ⟨?_, ?_, ?_⟩
  · rw [hhist, length_toRowsFrom]
  · simp only [historyTable, List.length_map]
    rw [hhist, length_toRowsFrom]
  · intro i record hget
    have hnodup := nodup_of_wellFormed hwf hget
    have hrow : (toRowsFrom 0 records)[i]?
        = some (JsObject.spread [("id", JsValue.num ((0 + i : Nat) + 1))] record) := by
      rw [getElem?_toRowsFrom, hget]
      rfl
    have hemotion := get_row_field ((0 + i : Nat) + 1) record "emotion" hnodup (by decide)
    have htime := get_row_field ((0 + i : Nat) + 1) record "timestamp" hnodup (by decide)
    refine ⟨_, by rw [hhist]; exact hrow, hemotion, htime, ?_⟩
    simp only [historyTable, List.getElem?_map]
    rw [hhist, hrow]
    simp only [Option.map_some', hemotion, htime]

/-- C11 at a response of two records: the table shows them in the order of the
response. -/
theorem fetch_keeps_records_in_order_witness :
    (∀ record ∈ plainRecords, record.wellFormed = true) ∧
    historyTable (fetchEmotionHistory_resume Session.initial (some plainRecords))
      = [(JsValue.num 1, JsValue.str "happy", JsValue.str "2024-05-01T10:00:00Z"),
         (JsValue.num 2, JsValue.str "sad", JsValue.str "2024-05-02T11:30:00Z")] ∧
    (fetchEmotionHistory_resume Session.initial (some plainRecords)).emotionHistory.length
      = plainRecords.length ∧
    (historyTable (fetchEmotionHistory_resume Session.initial (some plainRecords))).length
      = plainRecords.length :=
  have hwf : ∀ record ∈ plainRecords, record.wellFormed = true := by decide
  have h := fetch_keeps_records_in_order Session.initial plainRecords hwf
  ⟨hwf, by decide, h.1, h.2.1⟩

/-! ## A failing detector -/

/-- C12 fails in the code.  `captureEmotion` has no `try`: when the detector's
promise rejects in a streaming session, the exception leaves the function; the
error message stays empty and the dialog stays closed. -/
theorem detector_rejection_escapes :
    captureEmotion streamingSession none = .error "Error: detection failed" ∧
    (run (mount none)
        [.startClick, .modelsSettled true true, .cameraGranted 1,
         .captureClick, .detectSettled none]).map
      (fun s => (s.isRecording, s.error, s.confirmEmotion, s.uncaught))
      = some (true, "", false, ["Error: detection failed"]) := by
  refine ⟨rfl, ?_⟩
  simp [run, step, offered, handle, settle, mount, Session.initial,
    startRecording_begin, startRecording_afterModels, loadModels,
    getUserMedia_then, captureEmotion]

/-! ## The row numbers -/

/-- C13 as stated fails: for a response whose two records both carry the `id`
5, both rows have the id 5, not 1 and 2, and the ids are not distinct. -/
theorem row_ids_taken_from_records :
    (historyTable (fetchEmotionHistory_resume Session.initial (some recordsWithId))).map
        (fun line => line.1)
      = [JsValue.num 5, JsValue.num 5] ∧
    ¬ ((historyTable (fetchEmotionHistory_resume Session.initial (some recordsWithId))).map
        (fun line => line.1)).Nodup := by
  decide

/-- C13 amended: for a response of `n` records (each an object), row `i` has
the id of record `i` when that record has an `id` of its own, and the id
`i + 1` otherwise; so when no record has an `id` of its own, the rows are
numbered 1 to `n` in order and the ids are pairwise distinct. -/
theorem row_ids_number_records_without_id (s : Session) (records : List JsObject)
    (hwf : ∀ record ∈ records, record.wellFormed = true) :
    (∀ (i : Nat) (record : JsObject), records[i]? = some record →
      ∃ row : JsObject, (fetchEmotionHistory_resume s (some records)).emotionHistory[i]? = some row ∧
        row.get "id"
          = if "id" ∈ record.keys then record.get "id" else JsValue.num ((i : Nat) + 1)) ∧
    ((∀ record ∈ records, "id" ∉ record.keys) →
      (fetchEmotionHistory_resume s (some records)).emotionHistory.map
          (fun row => row.get "id")
        = (List.range records.length).map (fun i => JsValue.num ((i : Nat) + 1)) ∧
      ((fetchEmotionHistory_resume s (some records)).emotionHistory.map
          (fun row => row.get "id")).Nodup) := by
  have hhist : (fetchEmotionHistory_resume s (some records)).emotionHistory
      = toRowsFrom 0 records := rfl
  have hrows : ∀ (i : Nat) (record : JsObject), records[i]? = some record →
      ∃ row : JsObject, (toRowsFrom 0 records)[i]? = some row ∧
        row.get "id"
          = if "id" ∈ record.keys then record.get "id" else JsValue.num ((i : Nat) + 1) := by
    intro i record hget
    have hnodup := nodup_of_wellFormed hwf hget
    refine ⟨JsObject.spread [("id", JsValue.num ((0 + i : Nat) + 1))] record, ?_, ?_⟩
    · rw [getElem?_toRowsFrom, hget]
      rfl
    · by_cases hid : "id" ∈ record.keys
      · rw [if_pos hid]
        exact get_spread_present _ record "id" hnodup hid
      · rw [if_neg hid, get_spread_absent _ record "id" hid]
        simp [JsObject.get, List.lookup]
  rw [hhist]
  refine ⟨hrows, ?_⟩
  intro hnoid
  have heq : (toRowsFrom 0 records).map (fun row => row.get "id")
      = (List.range records.length).map (fun i => JsValue.num ((i : Nat) + 1)) := by
    apply List.ext_getElem?
    intro i
    simp only [List.getElem?_map]
    by_cases hlt : i < records.length
    · obtain ⟨row, hrow, hidrow⟩ := hrows i records[i] (List.getElem?_eq_getElem hlt)
      have hno : "id" ∉ JsObject.keys records[i] := hnoid _ (List.getElem_mem hlt)
      rw [if_neg hno] at hidrow
      rw [hrow, List.getElem?_range hlt]
      simp [hidrow]
    · have hge : records.length ≤ i := Nat.le_of_not_lt hlt
      rw [List.getElem?_eq_none (by rw [length_toRowsFrom]; exact hge),
        List.getElem?_eq_none (by rw [List.length_range]; exact hge)]
      rfl
  refine ⟨heq, ?_⟩
  rw [heq]
  refine List.Nodup.map ?_ (List.nodup_range _)
  intro a b hab
  simp only [JsValue.num.injEq] at hab
  omega

/-- C13 amended, at a response of two records without an `id`: the rows are
numbered 1 and 2. -/
theorem row_ids_number_records_without_id_witness :
    (∀ record ∈ plainRecords, record.wellFormed = true) ∧
    (∀ record ∈ plainRecords, "id" ∉ record.keys) ∧
    (fetchEmotionHistory_resume Session.initial (some plainRecords)).emotionHistory.map
        (fun row => row.get "id")
      = [JsValue.num 1, JsValue.num 2] ∧
    ((fetchEmotionHistory_resume Session.initial (some plainRecords)).emotionHistory.map
        (fun row => row.get "id")).Nodup :=
  have hwf : ∀ record ∈ plainRecords, record.wellFormed = true := by decide
  have hnoid : ∀ record ∈ plainRecords, "id" ∉ record.keys := by decide
  have h := (row_ids_number_records_without_id Session.initial plainRecords hwf).2 hnoid
  ⟨hwf, hnoid, by decide, h.2⟩

end EmotionTracker
